import Mathlib

/-!
Verification of the Dwarf bot's extension-lifecycle manager and command
dispatch/authorization pipeline, as implemented in src/bot.py,
src/core/cogs.py and src/core/controllers.py.

Pure fragments of the Python code are translated into executable Lean
definitions.  Interactive waits (the yes/no and numbered-choice prompts) are
modelled by scripts of replies threaded through the state: an entry of the
script is the reply that resolved the wait, and a missing entry (or an
explicit none) is a timeout.  Python exceptions are modelled with Except /
Option results, and Python's dynamic-typing failures (TypeError, ValueError,
IndexError) with an explicit error type.

The registry backend (BaseController.install_extension,
BaseController.uninstall_extension) and the yes/no wait
(Bot.wait_for_answer) are part of the repository but their source is not in
src/; the definitions embedding them are modelled from the spec and are
marked as such in their doc comments.
-/

namespace Dwarf

/-! ## Prefix configuration (src/core/controllers.py, CoreController) -/

/-- Errors raised by the prefix management operations of
CoreController (src/core/controllers.py lines 10-17). -/
inductive PrefixErr where
  | alreadyExists
  | notFound
deriving DecidableEq, Repr

/-- The slice of the key-value store the prefix operations touch: the value
stored under the key given by the string "prefixes" (default: empty list). -/
structure CacheState where
  prefixes : List String
deriving DecidableEq, Repr

/-- CoreController.get_prefixes (controllers.py lines 92-95): returns the
stored prefix list, defaulting to the empty list. -/
def get_prefixes (c : CacheState) : List String :=
  c.prefixes

/-- CoreController.add_prefix (controllers.py lines 112-127), renamed from
add_prefix: reads the prefix list, raises PrefixAlreadyExists if the prefix
is present (leaving the store untouched), otherwise appends it and stores
the result.  The raised exception is returned as a some value together with
the store state after the call. -/
def addPrefixRun (p : String) (c : CacheState) : Option PrefixErr × CacheState :=
  let ps := get_prefixes c
  if p ∈ ps then
    (some PrefixErr.alreadyExists, c)
  else
    (none, { c with prefixes := ps ++ [p] })

/-- CoreController.remove_prefix (controllers.py lines 129-144), renamed
from remove_prefix: reads the prefix list, raises PrefixNotFound if the
prefix is absent (leaving the store untouched), otherwise removes its first
occurrence and stores the result. -/
def removePrefixRun (p : String) (c : CacheState) : Option PrefixErr × CacheState :=
  let ps := get_prefixes c
  if p ∉ ps then
    (some PrefixErr.notFound, c)
  else
    (none, { c with prefixes := ps.erase p })

/-! ## The add_prefix command (src/core/cogs.py, Core.add_prefix) -/

/-- Python str.startswith applied to the one-character double-quote prefix:
the first character of the string is a double quote. -/
def headIsQuote (p : String) : Bool :=
  match p.data with
  | [] => false
  | c :: _ => c == '"'

/-- Python str.endswith applied to the one-character double-quote suffix:
the last character of the string is a double quote. -/
def lastIsQuote (p : String) : Bool :=
  match p.data.getLast? with
  | none => false
  | some c => c == '"'

/-- The quote-stripping step of the Core.add_prefix command (cogs.py lines
518-519): if the argument starts and ends with a double quote, it is
replaced by its slice from index 1 to its length minus 1 (Python
prefix[1:len(prefix) - 1], i.e. the character list with the first and the
last element removed); otherwise it is kept verbatim. -/
def stripQuotes (p : String) : String :=
  if headIsQuote p && lastIsQuote p then String.mk ((p.data.drop 1).dropLast) else p

/-- The user-visible outcome of the Core.add_prefix command. -/
inductive PrefMsg where
  | added (p : String)
  | alreadyExists (p : String)
deriving DecidableEq, Repr

/-- Core- cog command add_prefix (cogs.py lines 513-527), renamed from
add_prefix: strips surrounding double quotes, then calls the controller's
add operation; on PrefixAlreadyExists it reports failure and leaves the
store unchanged.  (The mirroring of the prefix list into the running bot
object, line 523, is not modelled: it is a copy of the same value.) -/
def addPrefixCommand (p : String) (c : CacheState) : CacheState × PrefMsg :=
  let p' := stripQuotes p
  match addPrefixRun p' c with
  | (none, c') => (c', PrefMsg.added p')
  | (some _, c') => (c', PrefMsg.alreadyExists p')

/-! ## Authorization (src/bot.py, Bot.user_allowed; decorators in cogs.py) -/

/-- The authorization-relevant data of an incoming command invocation. -/
structure AuthCtx where
  authorBot : Bool
  authorId : Nat
deriving DecidableEq, Repr

/-- The bot configuration consulted by authorization: the configured owner
id, if any. -/
structure BotConfig where
  ownerId : Option Nat
deriving DecidableEq, Repr

/-- Bot.user_allowed (bot.py lines 153-163), the global check added to the
dispatcher: returns false if the author is a bot account; returns true if
the author is the configured owner; otherwise (the TODO branch) returns
true. -/
def user_allowed (cfg : BotConfig) (ctx : AuthCtx) : Bool :=
  if ctx.authorBot then false
  else if cfg.ownerId = some ctx.authorId then true
  else true

/-- A command of the Core cog together with its owner-only flag (whether the
declaration in cogs.py carries the is_owner decorator). -/
structure CoreCommand where
  cname : String
  ownerOnly : Bool
deriving DecidableEq, Repr

/-- The commands declared by the Core cog in src/core/cogs.py, with their
owner-only flags exactly as declared by the decorators. -/
def coreCommands : List CoreCommand :=
  [⟨"eval", true⟩, ⟨"install", true⟩, ⟨"update", true⟩, ⟨"uninstall", true⟩,
   ⟨"set_name", true⟩, ⟨"set_nickname", true⟩, ⟨"set_game", true⟩,
   ⟨"set_status", true⟩, ⟨"set_stream", true⟩, ⟨"set_avatar", true⟩,
   ⟨"set_token", true⟩, ⟨"set_description", true⟩, ⟨"set_repository", true⟩,
   ⟨"set_officialinvite", true⟩, ⟨"add_prefix", true⟩, ⟨"remove_prefix", true⟩,
   ⟨"prefixes", true⟩, ⟨"ping", false⟩, ⟨"shutdown", true⟩, ⟨"restart", true⟩,
   ⟨"leave", true⟩, ⟨"servers", true⟩, ⟨"contact", false⟩, ⟨"about", false⟩,
   ⟨"version", false⟩]

/-- The extension-management and bot-configuration command names (the fixed
owner-only set of the spec). -/
def mgmtNames : List String :=
  ["install", "update", "uninstall", "set_name", "set_nickname", "set_game",
   "set_status", "set_stream", "set_avatar", "set_token", "set_description",
   "set_repository", "set_officialinvite", "add_prefix", "remove_prefix",
   "shutdown", "restart", "leave", "servers"]

/-- Modelled from the spec: the command framework's check gate (the
enforcement of the is_owner decorator and of global checks lives in the
discord.py dependency, not under src/).  A command body runs, and any
response is produced, only if the global check Bot.user_allowed passes and,
for a command flagged owner-only, the author's id equals the configured
owner id; a failed check is a silent rejection. -/
def commandRuns (cfg : BotConfig) (ctx : AuthCtx) (c : CoreCommand) : Bool :=
  user_allowed cfg ctx && (!c.ownerOnly || decide (cfg.ownerId = some ctx.authorId))

/-! ## Yes/no prompts (Bot.wait_for_answer; caller in cogs.py lines 584-596) -/

/-- Python str.lower, character by character. -/
def lowerStr (r : String) : String :=
  String.mk (r.data.map Char.toLower)

/-- The affirmative token set of the yes/no prompt, matched
case-insensitively; any other reply is treated as declining. -/
def parseYes (r : String) : Bool :=
  decide (lowerStr r = "yes" ∨ lowerStr r = "y")

/-- Modelled from the spec: Bot.wait_for_answer (the ask_yes_no wait of the
InteractionController; its source is not under src/).  The replies list
holds the replies that arrive within the timeout window; an empty list means
no reply arrived in time, which resolves the wait to none, distinct from the
some false produced by an explicit declining reply. -/
def askYesNo (replies : List String) : Option Bool :=
  match replies with
  | [] => none
  | r :: _ => some (parseYes r)

/-! ## Numbered-choice prompt (src/bot.py, Bot.wait_for_choice) -/

/-- Python runtime errors relevant to Bot.wait_for_choice. -/
inductive PyErr where
  | typeError
  | valueError
  | indexError
deriving DecidableEq, Repr

/-- A Python value passed to the range builtin: wait_for_choice applies
range to its choices list (bot.py line 190). -/
inductive PyVal where
  | pint (n : Nat)
  | plist (xs : List String)

/-- The Python range builtin: defined on integers, raises TypeError on a
list argument. -/
def pyRange : PyVal → Except PyErr (List Nat)
  | PyVal.pint n => Except.ok (List.range n)
  | PyVal.plist _ => Except.error PyErr.typeError

/-- Python int() applied to a one-character string: the digit value, or a
ValueError for a non-digit character. -/
def pyIntOfChar (c : Char) : Except PyErr Int :=
  if c.isDigit then Except.ok ((c.toNat : Int) - ('0'.toNat : Int))
  else Except.error PyErr.valueError

/-- The choice_check predicate of Bot.wait_for_choice (bot.py lines
187-188): int(message.content[0]) - 1 in range(len(choices)).  Indexing an
empty reply raises IndexError and int() of a non-digit raises ValueError;
both propagate out of the check. -/
def choice_check (choices : List String) (content : String) : Except PyErr Bool :=
  match content.toList with
  | [] => Except.error PyErr.indexError
  | ch :: _ =>
    match pyIntOfChar ch with
    | Except.error e => Except.error e
    | Except.ok n => Except.ok (decide (0 ≤ n - 1 ∧ n - 1 < (choices.length : Int)))

/-- The waiting phase wait_for_choice would perform: scan the incoming
replies for the first one accepted by choice_check; a reply on which the
check raises propagates the error, a non-matching reply leaves the wait
pending, and exhausting the replies (the timeout) yields none. -/
def waitLoop (choices : List String) : List String → Except PyErr (Option String)
  | [] => Except.ok none
  | r :: rs =>
    match choice_check choices r with
    | Except.error e => Except.error e
    | Except.ok true => Except.ok (some r)
    | Except.ok false => waitLoop choices rs

/-- Bot.wait_for_choice (bot.py lines 183-197): builds the numbered list of
choices by iterating for i in range(choices) - range applied to the choices
list itself - then sends the prompt and waits with choice_check.  The range
call raises TypeError before the prompt is ever sent, so the wait phase is
unreachable. -/
def wait_for_choice (choices : List String) (replies : List String) :
    Except PyErr (Option String) :=
  match pyRange (PyVal.plist choices) with
  | Except.error e => Except.error e
  | Except.ok _ => waitLoop choices replies

/-! ## Extension registry data model -/

/-- An extension descriptor resolved through the extension index: its
declared OS-package dependencies and extension dependencies. -/
structure ExtDescriptor where
  packageDeps : List String
  extensionDeps : List String
deriving DecidableEq, Repr

/-- An installed-extension record of the registry: the extension's name, its
declared extension dependencies (recorded at install time for the reverse
dependency scan of uninstall), and its loaded flag. -/
structure InstalledRec where
  name : String
  extDeps : List String
  loaded : Bool
deriving DecidableEq, Repr

/-- The state of the registry backend and of the OS package collaborator:
the installed-extension records in insertion order, and the set of packages
available on the system. -/
structure World where
  installed : List InstalledRec
  packages : List String
deriving DecidableEq, Repr

/-- The names of the installed extensions, in insertion order. -/
def World.extNames (w : World) : List String :=
  w.installed.map (fun r => r.name)

/-- The dict of unmet requirements returned by the registry's install and
update operations: keys given by the strings "packages" and "extensions". -/
structure Unsat where
  packages : List String
  extensions : List String
deriving DecidableEq, Repr

/-- ExtensionAlreadyInstalled and ExtensionNotInIndex
(dwarf.errors), the expected failures of the install operation. -/
inductive InstallErr where
  | alreadyInstalled
  | notInIndex
deriving DecidableEq, Repr

/-- The external collaborators of an install batch: the extension index
(possibly consulted with a custom source repository) and the OS package
manager returning an exit code per package. -/
structure InstallEnv where
  index : Option String → String → Option ExtDescriptor
  pkgExit : String → Int

/-- Modelled from the spec: BaseController.install_extension (the registry
backend; its source is not under src/).  Raises ExtensionAlreadyInstalled if
a record for the name exists, ExtensionNotInIndex if the index cannot
resolve the name; otherwise compares the descriptor's declared dependencies
with what is installed/available and either returns the non-empty closure of
unmet requirements leaving the registry untouched, or - when the closure is
empty - creates the record (loaded false) and returns None. -/
def install_extension (env : InstallEnv) (repo : Option String) (name : String)
    (w : World) : Except InstallErr (Option Unsat × World) :=
  if name ∈ World.extNames w then Except.error InstallErr.alreadyInstalled
  else
    match env.index repo name with
    | none => Except.error InstallErr.notInIndex
    | some d =>
      let unsatP := d.packageDeps.filter (fun p => decide (p ∉ w.packages))
      let unsatE := d.extensionDeps.filter (fun e => decide (e ∉ World.extNames w))
      if unsatP = [] ∧ unsatE = [] then
        Except.ok (none, { w with installed := w.installed ++ [⟨name, d.extensionDeps, false⟩] })
      else Except.ok (some ⟨unsatP, unsatE⟩, w)

/-! ## The install command (src/core/cogs.py, Core.install) -/

/-- The messages sent to the invoking channel by the per-item install and
uninstall procedures, one constructor per ctx.send call site, carrying the
data the sent text is built from. -/
inductive ItemMsg where
  | specifyName
  | skippingThis
  | installing (ext : String)
  | alreadyInstalledMsg (ext : String)
  | notInIndexMsg (ext : String)
  | failedToInstall (ext : String) (unsatP unsatE : List String)
  | askPackages
  | installedPackage (p : String)
  | failedPackages (ps : List String)
  | declinedPackages (ext : String)
  | askExtDeps (ext : String)
  | failedExtDeps (ext : String)
  | declinedExtDeps
  | installedOk (ext : String)
  | uninstalling (ext : String)
  | notFoundMsg (ext : String)
  | cascadeNotice (ext : String) (cascade : List String)
  | proceedPrompt
  | failedUninstallList (ps : List String)
  | declinedUninstall
  | uninstalledOk (ext : String)
deriving DecidableEq, Repr

/-- The installation_status defaultdict of Core.install (cogs.py line 65):
the four report lists, in the order the aggregated report renders them. -/
structure InstallStatus where
  installed_extensions : List String
  installed_packages : List String
  failed_extensions : List String
  failed_packages : List String
deriving DecidableEq, Repr

/-- The state threaded through one run of the install batch: the registry
and package world, the accumulated report lists, the script of replies to
yes/no prompts (an entry of none is a timeout), the script of replies to
requests for an extension name after a repository URL (none is a timeout),
and the messages sent so far. -/
structure RunS where
  w : World
  st : InstallStatus
  ans : List (Option Bool)
  rep : List (Option String)
  out : List ItemMsg
deriving DecidableEq, Repr

/-- Consume the next yes/no reply; an exhausted script is a timeout. -/
def RunS.popAns (s : RunS) : Option Bool × RunS :=
  match s.ans with
  | [] => (none, s)
  | a :: rest => (a, { s with ans := rest })

/-- Consume the next extension-name reply; an exhausted script is a
timeout. -/
def RunS.popRep (s : RunS) : Option String × RunS :=
  match s.rep with
  | [] => (none, s)
  | m :: rest => (m, { s with rep := rest })

/-- Record a ctx.send call. -/
def RunS.emit (s : RunS) (m : ItemMsg) : RunS :=
  { s with out := s.out ++ [m] }

/-- Append a name to the failed_extensions report list. -/
def RunS.failExt (s : RunS) (ext : String) : RunS :=
  { s with st := { s.st with failed_extensions := s.st.failed_extensions ++ [ext] } }

/-- Python str.startswith applied to the prefix given by the string
"https://" (cogs.py line 76). -/
def isUrl (s : String) : Bool :=
  "https://".data.isPrefixOf s.data

/-- The package-installation loop of Core.install._install (cogs.py lines
113-119), with Python's for-statement semantics made explicit: the loop
iterates by index i over the mutating list, and a successful installation
(exit code 0) removes the package from the list so the next index skips over
the element that moved into the removed slot.  On success the package
becomes available and is appended to installed_packages.  Returns the
packages still unsatisfied together with the updated state.  The fuel
argument is an upper bound on the number of iterations; callers pass the
initial list length, which the index-versus-length loop condition never
exceeds. -/
def packageLoop (env : InstallEnv) : Nat → Nat → List String → RunS → List String × RunS
  | 0, _, pkgs, s => (pkgs, s)
  | fuel + 1, i, pkgs, s =>
    if h : i < pkgs.length then
      let p := pkgs.get ⟨i, h⟩
      if env.pkgExit p = 0 then
        let pkgs' := pkgs.erase p
        let s' := { s with
          w := { s.w with packages := s.w.packages ++ [p] },
          st := { s.st with installed_packages := s.st.installed_packages ++ [p] },
          out := s.out ++ [ItemMsg.installedPackage p] }
        packageLoop env fuel (i + 1) pkgs' s'
      else packageLoop env fuel (i + 1) pkgs s
    else (pkgs, s)

mutual

/-- Core.install._install (cogs.py lines 74-157), entry point.  If the
argument is a repository URL, the procedure asks for the extension's name
and waits; a timeout skips the item (returns False), otherwise processing
continues with the replied name and the URL as custom repository.  The fuel
argument bounds the recursion depth (the original recurses without a
visited-set and can recurse forever on a dependency cycle); exhausted fuel
returns the None outcome.  Each layer of the mutual recursion consumes one
unit of fuel. -/
def installOne (env : InstallEnv) : Nat → String → RunS → Option Bool × RunS
  | 0, _, s => (none, s)
  | fuel + 1, ext, s =>
    if isUrl ext then
      let s := s.emit ItemMsg.specifyName
      match s.popRep with
      | (none, s) => (some false, s.emit ItemMsg.skippingThis)
      | (some nm, s) => installBody env fuel nm (some ext) s
    else installBody env fuel ext none s

/-- Core.install._install, lines 84-157: announces the installation, calls
the registry's install operation, converts the two expected failures into
failed_extensions entries (returning False), and on a non-empty closure of
unmet requirements sends the failure message and enters the
package-confirmation branch (lines 109-130) and then the
extension-dependency phase (lines 132-152); an empty closure means the
record was created and the item is reported installed (returning True). -/
def installBody (env : InstallEnv) : Nat → String → Option String → RunS → Option Bool × RunS
  | 0, _, _, s => (none, s)
  | fuel + 1, ext, repo, s =>
    let s := s.emit (ItemMsg.installing ext)
    match install_extension env repo ext s.w with
    | Except.error InstallErr.alreadyInstalled =>
      (some false, ((s.emit (ItemMsg.alreadyInstalledMsg ext)).failExt ext))
    | Except.error InstallErr.notInIndex =>
      (some false, ((s.emit (ItemMsg.notInIndexMsg ext)).failExt ext))
    | Except.ok (none, w') =>
      let s := { s with w := w' }
      let s := s.emit (ItemMsg.installedOk ext)
      (some true,
        { s with st := { s.st with installed_extensions := s.st.installed_extensions ++ [ext] } })
    | Except.ok (some u, w') =>
      let s := { s with w := w' }
      let s := s.emit (ItemMsg.failedToInstall ext u.packages u.extensions)
      if u.packages = [] then extPhase env fuel ext u u.packages s
      else
        let s := s.emit ItemMsg.askPackages
        match s.popAns with
        | (a, s) =>
          if a = some true then
            match packageLoop env u.packages.length 0 u.packages s with
            | (remaining, s) =>
              if remaining = [] then extPhase env fuel ext u remaining s
              else
                let s := s.emit (ItemMsg.failedPackages remaining)
                (some false,
                  { s with st :=
                    { s.st with failed_packages := s.st.failed_packages ++ remaining } })
          else (some false, ((s.emit (ItemMsg.declinedPackages ext)).failExt ext))

/-- Core.install._install, lines 132-152 and the implicit fall-through:
reached with the (mutated) unsatisfied package list and the closure; when
the packages are all satisfied and extension dependencies remain, asks for
confirmation, installs them through the loop, and on full success retries
the whole item (line 148); a decline or a remaining dependency marks the
item failed.  When no extension dependencies remain the procedure falls off
the end of the Python function and returns None: on the path where package
dependencies were just installed successfully, the item lands in no report
list at all. -/
def extPhase (env : InstallEnv) : Nat → String → Unsat → List String → RunS → Option Bool × RunS
  | 0, _, _, _, s => (none, s)
  | fuel + 1, ext, u, pkgsNow, s =>
    if pkgsNow = [] ∧ u.extensions ≠ [] then
      let s := s.emit (ItemMsg.askExtDeps ext)
      match s.popAns with
      | (a, s) =>
        if a = some true then
          match extDepsLoop env fuel 0 u.extensions s with
          | (remE, s) =>
            if remE = [] then installOne env fuel ext s
            else (some false, ((s.emit (ItemMsg.failedExtDeps ext)).failExt ext))
        else (some false, ((s.emit ItemMsg.declinedExtDeps).failExt ext))
    else (none, s)

/-- The dependency-installation loop of Core.install._install (cogs.py
lines 137-140), with Python's for-statement semantics made explicit exactly
as in packageLoop: a dependency whose recursive installation returns True is
removed from the list, shifting later elements under the advancing index. -/
def extDepsLoop (env : InstallEnv) : Nat → Nat → List String → RunS → List String × RunS
  | 0, _, exts, s => (exts, s)
  | fuel + 1, i, exts, s =>
    if h : i < exts.length then
      let e := exts.get ⟨i, h⟩
      match installOne env fuel e s with
      | (rc, s) =>
        let exts' := if rc = some true then exts.erase e else exts
        extDepsLoop env fuel (i + 1) exts' s
    else (exts, s)

end

/-- The messages sent by the batch-level code of the install and uninstall
commands, after the per-item loop. -/
inductive CmdMsg where
  | item (m : ItemMsg)
  | report (installedE installedP failedE failedP : List String)
  | uninstallReport (uninstalledE failedE : List String)
  | restartPrompt
  | restartOk
deriving DecidableEq, Repr

/-- Whether a message is the aggregated install report. -/
def CmdMsg.isReport : CmdMsg → Bool
  | CmdMsg.report _ _ _ _ => true
  | _ => false

/-- Whether a message is the end-of-batch restart confirmation prompt. -/
def CmdMsg.isRestartPrompt : CmdMsg → Bool
  | CmdMsg.restartPrompt => true
  | _ => false

/-- The outcome of a whole install batch: final report lists, final world,
the full ordered message trace, and the unconsumed reply script. -/
structure CmdResult where
  st : InstallStatus
  w : World
  trace : List CmdMsg
  ans : List (Option Bool)
deriving Repr

/-- The empty installation_status defaultdict. -/
def emptyStatus : InstallStatus := ⟨[], [], [], []⟩

/-- Core.install, lines 162-183: after the per-item loop, sends the single
aggregated completed_message built from the four report lists, and -
exactly when installed_extensions is non-empty - sends one restart
confirmation prompt, waits for the answer, and on an affirmative answer
announces the restart. -/
def installReportPhase (s : RunS) : CmdResult :=
  let tr := s.out.map CmdMsg.item ++
    [CmdMsg.report s.st.installed_extensions s.st.installed_packages
      s.st.failed_extensions s.st.failed_packages]
  if s.st.installed_extensions = [] then ⟨s.st, s.w, tr, s.ans⟩
  else
    let tr := tr ++ [CmdMsg.restartPrompt]
    match s.popAns with
    | (a, s') =>
      if a = some true then ⟨s'.st, s'.w, tr ++ [CmdMsg.restartOk], s'.ans⟩
      else ⟨s'.st, s'.w, tr, s'.ans⟩

/-- Core.install (cogs.py lines 59-183), from the point where the argument
has been split into names: runs _install on each name in order, then the
report phase. -/
def installCommand (env : InstallEnv) (fuel : Nat) (names : List String) (w : World)
    (ans : List (Option Bool)) (rep : List (Option String)) : CmdResult :=
  installReportPhase
    (names.foldl (fun acc n => (installOne env fuel n acc).2) ⟨w, emptyStatus, ans, rep, []⟩)

/-! ## The uninstall command (src/core/cogs.py, Core.uninstall) -/

/-- ExtensionNotFound (dwarf.errors), the expected failure of the uninstall
and update operations. -/
inductive UninstallErr where
  | notFound
deriving DecidableEq, Repr

/-- The installed extensions whose declared extension dependencies include
the given name (the reverse-dependency scan of the registry), in record
order. -/
def dependentsOf (name : String) (w : World) : List String :=
  (w.installed.filter (fun r => decide (name ∈ r.extDeps))).map (fun r => r.name)

/-- Modelled from the spec: BaseController.uninstall_extension (the
registry backend; its source is not under src/).  Raises ExtensionNotFound
if no record for the name exists.  Otherwise computes the cascade set of
installed extensions whose declared extension dependencies include the
name; if it is non-empty the registry returns it and defers the removal,
leaving the record in place; only when the cascade set is empty is the
record actually removed. -/
def uninstall_extension (name : String) (w : World) :
    Except UninstallErr (List String × World) :=
  if name ∈ World.extNames w then
    let cascade := dependentsOf name w
    if cascade = [] then
      Except.ok ([], { w with installed := w.installed.filter (fun r => decide (r.name ≠ name)) })
    else Except.ok (cascade, w)
  else Except.error UninstallErr.notFound

/-- The uninstall_status defaultdict of Core.uninstall (cogs.py line
303). -/
structure UninstallStatus where
  uninstalled_extensions : List String
  failed_extensions : List String
deriving DecidableEq, Repr

/-- The state threaded through one run of the uninstall batch. -/
structure URun where
  w : World
  st : UninstallStatus
  ans : List (Option Bool)
  out : List ItemMsg
deriving DecidableEq, Repr

/-- Consume the next yes/no reply; an exhausted script is a timeout. -/
def URun.popAns (s : URun) : Option Bool × URun :=
  match s.ans with
  | [] => (none, s)
  | a :: rest => (a, { s with ans := rest })

/-- Record a ctx.send call. -/
def URun.emit (s : URun) (m : ItemMsg) : URun :=
  { s with out := s.out ++ [m] }

/-- Append a name to the failed_extensions report list. -/
def URun.failExt (s : URun) (ext : String) : URun :=
  { s with st := { s.st with failed_extensions := s.st.failed_extensions ++ [ext] } }

mutual

/-- Core.uninstall._uninstall (cogs.py lines 305-341): announces the
uninstallation, calls the registry's uninstall operation, converts the
expected ExtensionNotFound into a failed_extensions entry; on a non-empty
cascade set it reports the extensions that would be uninstalled too, asks
for confirmation, uninstalls every cascade member through the loop, and
retries the item itself once the cascade list is empty (line 332); a decline
or a remaining cascade member marks the item failed.  An empty cascade set
means the record was removed and the item is reported uninstalled.  The fuel
argument bounds the recursion depth; exhausted fuel returns the None
outcome. -/
def uninstallOne : Nat → String → URun → Option Bool × URun
  | 0, _, s => (none, s)
  | fuel + 1, ext, s =>
    let s := s.emit (ItemMsg.uninstalling ext)
    match uninstall_extension ext s.w with
    | Except.error UninstallErr.notFound =>
      (some false, ((s.emit (ItemMsg.notFoundMsg ext)).failExt ext))
    | Except.ok (cascade, w') =>
      if cascade = [] then
        let s := { s with w := w' }
        let s := s.emit (ItemMsg.uninstalledOk ext)
        (some true,
          { s with st :=
            { s.st with uninstalled_extensions := s.st.uninstalled_extensions ++ [ext] } })
      else
        let s := { s with w := w' }
        let s := s.emit (ItemMsg.cascadeNotice ext cascade)
        let s := s.emit ItemMsg.proceedPrompt
        match s.popAns with
        | (a, s) =>
          if a = some true then
            match cascadeLoop fuel 0 cascade s with
            | (remaining, s) =>
              if remaining = [] then uninstallOne fuel ext s
              else
                (some false, ((s.emit (ItemMsg.failedUninstallList remaining)).failExt ext))
          else (some false, ((s.emit ItemMsg.declinedUninstall).failExt ext))

/-- The cascade loop of Core.uninstall._uninstall (cogs.py lines 320-323),
with Python's for-statement semantics made explicit exactly as in
packageLoop: a cascade member whose recursive uninstallation returns True is
removed from the list, shifting later elements under the advancing index. -/
def cascadeLoop : Nat → Nat → List String → URun → List String × URun
  | 0, _, cas, s => (cas, s)
  | fuel + 1, i, cas, s =>
    if h : i < cas.length then
      let e := cas.get ⟨i, h⟩
      match uninstallOne fuel e s with
      | (rc, s) =>
        let cas' := if rc = some true then cas.erase e else cas
        cascadeLoop fuel (i + 1) cas' s
    else (cas, s)

end

/-- The outcome of a whole uninstall batch. -/
structure UCmdResult where
  st : UninstallStatus
  w : World
  trace : List CmdMsg
  ans : List (Option Bool)
deriving Repr

/-- Core.uninstall, lines 346-361: after the per-item loop, sends the
single aggregated completed_message built from the two report lists, and -
exactly when uninstalled_extensions is non-empty - sends one restart
confirmation prompt, waits for the answer, and on an affirmative answer
announces the restart. -/
def uninstallReportPhase (s : URun) : UCmdResult :=
  let tr := s.out.map CmdMsg.item ++
    [CmdMsg.uninstallReport s.st.uninstalled_extensions s.st.failed_extensions]
  if s.st.uninstalled_extensions = [] then ⟨s.st, s.w, tr, s.ans⟩
  else
    let tr := tr ++ [CmdMsg.restartPrompt]
    match s.popAns with
    | (a, s') =>
      if a = some true then ⟨s'.st, s'.w, tr ++ [CmdMsg.restartOk], s'.ans⟩
      else ⟨s'.st, s'.w, tr, s'.ans⟩

/-- Core.uninstall (cogs.py lines 297-361), from the point where the
argument has been split into names: runs _uninstall on each name in order,
then the report phase. -/
def uninstallCommand (fuel : Nat) (names : List String) (w : World)
    (ans : List (Option Bool)) : UCmdResult :=
  uninstallReportPhase
    (names.foldl (fun acc n => (uninstallOne fuel n acc).2) ⟨w, ⟨[], []⟩, ans, []⟩)

/-- A registry state with no dangling references: every installed
extension's declared extension dependencies are themselves installed.  The
install operation only creates a record when its extension dependencies are
satisfied, and the uninstall operation defers removal while dependents
remain, so this is the invariant the spec asks uninstall to preserve. -/
def ClosedWorld (w : World) : Prop :=
  ∀ r ∈ w.installed, ∀ d ∈ r.extDeps, d ∈ World.extNames w

/-- The environment of the spec's end-to-end scenario: the index resolves
the name given by the string "weather" to a descriptor declaring exactly
the package dependency given by the string "requests-lib" and no extension
dependencies, and the package manager returns exit code 0 for every
package. -/
def weatherEnv : InstallEnv :=
  ⟨fun _ n => if n = "weather" then some ⟨["requests-lib"], []⟩ else none, fun _ => 0⟩

/-- The scenario run: installing the single extension, starting from an
empty registry, with the user answering yes to the package prompt. -/
def weatherRun : CmdResult :=
  installCommand weatherEnv 10 ["weather"] ⟨[], []⟩ [some true] []

/-! ## Claim C6: expected per-item failures do not abort the batch -/

/-- The expected ways a single install item can fail: the two expected
exceptions caught at the per-item boundary, and the two declined (or timed
out) confirmations. -/
inductive FailReason where
  | alreadyInstalled
  | notInIndex
  | declinedPackages
  | declinedExtensions
deriving DecidableEq, Repr

/-- The conditions under which processing of an item x fails with the given
expected reason, for an item whose processing consumes at most the first
entry a of the reply script: already installed; unknown to the index;
unsatisfied package dependencies with the package prompt not affirmed; or
satisfied packages, unsatisfied extension dependencies and the dependency
prompt not affirmed. -/
def failSetup (env : InstallEnv) (rsn : FailReason) (x : String) (w : World)
    (a : Option Bool) : Prop :=
  match rsn with
  | FailReason.alreadyInstalled => x ∈ World.extNames w
  | FailReason.notInIndex => x ∉ World.extNames w ∧ env.index none x = none
  | FailReason.declinedPackages =>
      x ∉ World.extNames w ∧ a ≠ some true ∧
      ∃ d, env.index none x = some d ∧
        d.packageDeps.filter (fun p => decide (p ∉ w.packages)) ≠ []
  | FailReason.declinedExtensions =>
      x ∉ World.extNames w ∧ a ≠ some true ∧
      ∃ d, env.index none x = some d ∧
        d.packageDeps.filter (fun p => decide (p ∉ w.packages)) = [] ∧
        d.extensionDeps.filter (fun e => decide (e ∉ World.extNames w)) ≠ []

/-! ## Claim theorems: C3, C4, C7, C8, C10 -/

/-- Claim C3: dispatch rejects every invocation by a bot account with no
response, and every command of the fixed owner-only set invoked by an author
whose id differs from the configured owner id does not run (no response, no
side effect); moreover every extension-management and bot-configuration
command of the Core cog is flagged owner-only. -/
theorem claim_C3_authorization_gate :
    (∀ (cfg : BotConfig) (ctx : AuthCtx) (c : CoreCommand),
      ctx.authorBot = true → commandRuns cfg ctx c = false) ∧
    (∀ (cfg : BotConfig) (ctx : AuthCtx) (c : CoreCommand),
      c ∈ coreCommands → c.ownerOnly = true → cfg.ownerId ≠ some ctx.authorId →
      commandRuns cfg ctx c = false) ∧
    (∀ c ∈ coreCommands, c.cname ∈ mgmtNames → c.ownerOnly = true) := by
  refine ⟨?_, ?_, ?_⟩
  · intro cfg ctx c hbot
    simp [commandRuns, user_allowed, hbot]
  · intro cfg ctx c _ howner hne
    simp [commandRuns, user_allowed, howner, hne]
  · decide

/-- Witness for C3 at concrete inputs: a bot author is rejected, and the
install command invoked by author 2 with configured owner 1 does not run. -/
theorem claim_C3_authorization_gate_witness :
    commandRuns ⟨some 1⟩ ⟨true, 1⟩ ⟨"install", true⟩ = false ∧
    commandRuns ⟨some 1⟩ ⟨false, 2⟩ ⟨"install", true⟩ = false :=
  ⟨claim_C3_authorization_gate.1 ⟨some 1⟩ ⟨true, 1⟩ ⟨"install", true⟩ rfl,
   claim_C3_authorization_gate.2.1 ⟨some 1⟩ ⟨false, 2⟩ ⟨"install", true⟩
     (by decide) rfl (by decide)⟩

/-- Claim C4: the claim says malformed (non-numeric or out-of-range) replies
never make the numbered-choice prompt fail and merely leave the wait
pending.  The code violates this: wait_for_choice raises TypeError on every
call (range applied to the choices list, before the prompt is even sent),
and its reply check raises ValueError on a reply with a non-numeric leading
character; only the out-of-range numeric case and the timeout behave as
claimed. -/
theorem claim_C4_choice_prompt_failure :
    wait_for_choice ["stay", "leave"] ["2"] = Except.error PyErr.typeError ∧
    choice_check ["stay", "leave"] "x" = Except.error PyErr.valueError ∧
    choice_check ["stay", "leave"] "3" = Except.ok false ∧
    waitLoop ["stay", "leave"] [] = Except.ok none :=
  ⟨rfl, rfl, rfl, rfl⟩

/-- Claim C7: adding an already-present prefix fails with
PrefixAlreadyExists and leaves the stored prefix list unchanged; removing an
absent prefix fails with PrefixNotFound and leaves the stored prefix list
unchanged. -/
theorem claim_C7_prefix_uniqueness :
    (∀ (p : String) (c : CacheState), p ∈ get_prefixes c →
      addPrefixRun p c = (some PrefixErr.alreadyExists, c)) ∧
    (∀ (p : String) (c : CacheState), p ∉ get_prefixes c →
      removePrefixRun p c = (some PrefixErr.notFound, c)) := by
  constructor
  · intro p c hp
    simp [addPrefixRun, hp]
  · intro p c hp
    simp [removePrefixRun, hp]

/-- Witness for C7 at concrete inputs: adding the duplicate prefix given by
the string "!" fails and the store keeps exactly that list, and removing the
absent prefix given by the string "?" fails likewise. -/
theorem claim_C7_prefix_uniqueness_witness :
    addPrefixRun "!" ⟨["!"]⟩ = (some PrefixErr.alreadyExists, ⟨["!"]⟩) ∧
    removePrefixRun "?" ⟨["!"]⟩ = (some PrefixErr.notFound, ⟨["!"]⟩) :=
  ⟨claim_C7_prefix_uniqueness.1 "!" ⟨["!"]⟩ (by decide),
   claim_C7_prefix_uniqueness.2 "?" ⟨["!"]⟩ (by decide)⟩

/-- Claim C8: a yes/no prompt with no reply within the timeout resolves to
the distinct no-reply outcome none, which differs from the some false of an
explicit negative reply; every actual reply yields a some value, so none
arises from timeout alone and callers can branch on the difference. -/
theorem claim_C8_timeout_distinct_from_no :
    askYesNo [] = none ∧
    askYesNo ["no"] = some false ∧
    askYesNo [] ≠ askYesNo ["no"] ∧
    (∀ (r : String) (rs : List String), askYesNo (r :: rs) ≠ none) := by
  refine ⟨rfl, rfl, by decide, ?_⟩
  intro r rs
  simp [askYesNo]

/-- Claim C10: when the argument starts and ends with a double quote the
add_prefix command passes it on with the first and last characters removed
(one leading and one trailing quote stripped), and that stripped string is
what gets appended to the stored prefix list; any other argument is added
verbatim.  The closed conjuncts evaluate the stripping on concrete inputs,
including the one-character edge case. -/
theorem claim_C10_quote_stripping :
    (∀ (p : String) (c : CacheState),
      headIsQuote p = true → lastIsQuote p = true →
      stripQuotes p = String.mk ((p.data.drop 1).dropLast) ∧
      (String.mk ((p.data.drop 1).dropLast) ∉ get_prefixes c →
        ((addPrefixCommand p c).1.prefixes =
          get_prefixes c ++ [String.mk ((p.data.drop 1).dropLast)]))) ∧
    (∀ (p : String) (c : CacheState),
      (headIsQuote p && lastIsQuote p) = false → p ∉ get_prefixes c →
      (addPrefixCommand p c).1.prefixes = get_prefixes c ++ [p]) ∧
    stripQuotes "\"ab\"" = "ab" ∧
    stripQuotes "ab" = "ab" ∧
    stripQuotes "\"" = "" := by
  refine ⟨?_, ?_, rfl, rfl, rfl⟩
  · intro p c hs he
    have hq : stripQuotes p = String.mk ((p.data.drop 1).dropLast) := by
      simp [stripQuotes, hs, he]
    refine ⟨hq, ?_⟩
    intro hmem
    simp only [get_prefixes] at hmem ⊢
    simp only [addPrefixCommand, addPrefixRun, get_prefixes, hq]
    rw [if_neg hmem]
  · intro p c hne hmem
    have hq : stripQuotes p = p := by
      simp [stripQuotes, hne]
    simp only [get_prefixes] at hmem ⊢
    simp only [addPrefixCommand, addPrefixRun, get_prefixes, hq]
    rw [if_neg hmem]

/-- Witness for C10 at concrete inputs: the quoted prefix loses its
surrounding quotes before storage, and an unquoted prefix is stored
verbatim. -/
theorem claim_C10_quote_stripping_witness :
    ((addPrefixCommand "\"!\"" ⟨[]⟩).1.prefixes = [] ++ ["!"]) ∧
    ((addPrefixCommand "?" ⟨[]⟩).1.prefixes = [] ++ ["?"]) :=
  ⟨((claim_C10_quote_stripping.1 "\"!\"" ⟨[]⟩ rfl rfl).2 (by decide)),
   claim_C10_quote_stripping.2.1 "?" ⟨[]⟩ rfl (by decide)⟩

/-! ## Helper lemmas -/

theorem countP_map_item_zero (p : CmdMsg → Bool) (h : ∀ m, p (CmdMsg.item m) = false)
    (l : List ItemMsg) : (l.map CmdMsg.item).countP p = 0 := by
  rw [List.countP_eq_zero]
  intro a ha
  obtain ⟨m, _, rfl⟩ := List.mem_map.mp ha
  simp [h]

theorem RunS.popAns_fields (s : RunS) :
    s.popAns.2.st = s.st ∧ s.popAns.2.w = s.w ∧ s.popAns.2.out = s.out := by
  rcases s with ⟨w, st, ans, rep, out⟩
  cases ans <;> simp [RunS.popAns]

theorem URun.popAns_parts (s : URun) :
    s.popAns.2.st = s.st ∧ s.popAns.2.w = s.w ∧ s.popAns.2.out = s.out := by
  rcases s with ⟨w, st, ans, out⟩
  cases ans <;> simp [URun.popAns]

theorem installReportPhase_st (s : RunS) : (installReportPhase s).st = s.st := by
  obtain ⟨h1, -, -⟩ := RunS.popAns_fields s
  simp only [installReportPhase]
  rcases hp : s.popAns with ⟨a, s'⟩
  rw [hp] at h1
  have h2 : s'.st = s.st := h1
  by_cases hinst : s.st.installed_extensions = [] <;>
    by_cases ha : a = some true <;>
    simp [hinst, ha, hp, h2]

theorem uninstallReportPhase_st (s : URun) : (uninstallReportPhase s).st = s.st := by
  obtain ⟨h1, -, -⟩ := URun.popAns_parts s
  simp only [uninstallReportPhase]
  rcases hp : s.popAns with ⟨a, s'⟩
  rw [hp] at h1
  have h2 : s'.st = s.st := h1
  by_cases hinst : s.st.uninstalled_extensions = [] <;>
    by_cases ha : a = some true <;>
    simp [hinst, ha, hp, h2]

theorem installReportPhase_spec (s : RunS) :
    (installReportPhase s).trace.countP CmdMsg.isReport = 1 ∧
    (installReportPhase s).trace.countP CmdMsg.isRestartPrompt =
      (if s.st.installed_extensions = [] then 0 else 1) := by
  simp only [installReportPhase]
  rcases hp : s.popAns with ⟨a, s'⟩
  by_cases hinst : s.st.installed_extensions = [] <;>
    by_cases ha : a = some true <;>
    simp [hinst, ha, hp, List.countP_append, List.countP_cons,
      countP_map_item_zero CmdMsg.isReport (fun m => rfl),
      countP_map_item_zero CmdMsg.isRestartPrompt (fun m => rfl),
      CmdMsg.isReport, CmdMsg.isRestartPrompt]

/-! ## Claim theorems: C1, C2, C9 -/

/-- Claim C1: the claim states that every requested name lands in exactly
one of installed_extensions or failed_extensions, in particular on the path
where the unsatisfied package dependencies are all installed after the
user's confirmation.  The code violates this on exactly that path: after
the packages install successfully and no extension dependencies remain,
_install falls off the end of the function, so the requested name appears
in neither list (and the extension is never even installed). -/
theorem claim_C1_requested_name_dropped :
    "weather" ∉ weatherRun.st.installed_extensions ∧
    "weather" ∉ weatherRun.st.failed_extensions ∧
    weatherRun.st.installed_packages = ["requests-lib"] := by
  decide

/-- Claim C2: the claim expects the weather scenario to end with installed
extensions ["weather"], installed packages ["requests-lib"] and empty
failed lists.  The code instead produces empty installed_extensions - the
package is installed and reported, but the extension itself is dropped and
its record is never created. -/
theorem claim_C2_weather_scenario :
    weatherRun.st = ⟨[], ["requests-lib"], [], []⟩ ∧
    weatherRun.w.installed = [] := by
  decide

/-- Claim C9: for every install batch, the emitted trace contains exactly
one aggregated report message, and exactly one end-of-batch restart
confirmation prompt if any extension was installed successfully during the
batch and none otherwise. -/
theorem claim_C9_one_report_one_restart_prompt :
    ∀ (env : InstallEnv) (fuel : Nat) (names : List String) (w : World)
      (ans : List (Option Bool)) (rep : List (Option String)),
      (installCommand env fuel names w ans rep).trace.countP CmdMsg.isReport = 1 ∧
      (installCommand env fuel names w ans rep).trace.countP CmdMsg.isRestartPrompt =
        (if (installCommand env fuel names w ans rep).st.installed_extensions = []
          then 0 else 1) := by
  intro env fuel names w ans rep
  obtain ⟨hA, hB⟩ := installReportPhase_spec
    (names.foldl (fun acc n => (installOne env fuel n acc).2) ⟨w, emptyStatus, ans, rep, []⟩)
  refine ⟨hA, ?_⟩
  show (installReportPhase _).trace.countP CmdMsg.isRestartPrompt =
    (if (installReportPhase _).st.installed_extensions = [] then 0 else 1)
  rw [installReportPhase_st]
  exact hB

theorem installOne_fail_step (env : InstallEnv) (f : Nat) (rsn : FailReason) (x : String)
    (s : RunS) (a : Option Bool) (rest : List (Option Bool))
    (hurl : isUrl x = false) (hans : s.ans = a :: rest)
    (hset : failSetup env rsn x s.w a) :
    (installOne env (f + 3) x s).2.st =
      { s.st with failed_extensions := s.st.failed_extensions ++ [x] } ∧
    (installOne env (f + 3) x s).2.w = s.w := by
  cases rsn with
  | alreadyInstalled =>
    simp only [failSetup] at hset
    simp [installOne, installBody, install_extension, hurl, hset, RunS.emit, RunS.failExt]
  | notInIndex =>
    obtain ⟨h1, h2⟩ := hset
    simp [installOne, installBody, install_extension, hurl, h1, h2, RunS.emit, RunS.failExt]
  | declinedPackages =>
    obtain ⟨h1, ha, d, hidx, hp⟩ := hset
    have hex : ∃ q ∈ d.packageDeps, q ∉ s.w.packages := by simpa using hp
    obtain ⟨q, hq, hq2⟩ := hex
    have hp2 : ¬ ∀ p ∈ d.packageDeps, p ∈ s.w.packages := fun hall => hq2 (hall q hq)
    simp only [decide_not] at hp
    simp [installOne, installBody, install_extension, hurl, h1, hidx, hp, hp2, hans, ha,
      RunS.popAns, RunS.emit, RunS.failExt]
  | declinedExtensions =>
    obtain ⟨h1, ha, d, hidx, hp, he⟩ := hset
    have hex : ∃ q ∈ d.extensionDeps, q ∉ World.extNames s.w := by simpa using he
    obtain ⟨q, hq, hq2⟩ := hex
    have he2 : ¬ ∀ e ∈ d.extensionDeps, e ∈ World.extNames s.w := fun hall => hq2 (hall q hq)
    simp only [decide_not] at hp he
    simp [installOne, installBody, extPhase, install_extension, hurl, h1, hidx, hp, he, he2,
      hans, ha, RunS.popAns, RunS.emit, RunS.failExt]

theorem installOne_success_step (env : InstallEnv) (f : Nat) (y : String) (s : RunS)
    (d : ExtDescriptor)
    (hurl : isUrl y = false) (hnotinst : y ∉ World.extNames s.w)
    (hidx : env.index none y = some d)
    (hp : d.packageDeps.filter (fun p => decide (p ∉ s.w.packages)) = [])
    (he : d.extensionDeps.filter (fun e => decide (e ∉ World.extNames s.w)) = []) :
    (installOne env (f + 3) y s).1 = some true ∧
    (installOne env (f + 3) y s).2.st =
      { s.st with installed_extensions := s.st.installed_extensions ++ [y] } := by
  simp only [decide_not] at hp he
  constructor <;>
    simp [installOne, installBody, install_extension, hurl, hnotinst, hidx, hp, he, RunS.emit]

/-- Claim C6: in a batch of two names where the first fails with an
expected condition (AlreadyInstalled, NotInIndex, or a declined or timed
out confirmation for the install command; NotFound for the uninstall
command) and the second succeeds, the failure is contained at the per-item
boundary: the second item is still processed, and the final report contains
the first name among the failed extensions and the second among the
succeeded ones, regardless of the reason the first failed. -/
theorem claim_C6_batch_partial_failure :
    (∀ (env : InstallEnv) (f : Nat) (rsn : FailReason) (x y : String) (w : World)
       (a : Option Bool) (rest : List (Option Bool)) (rep : List (Option String))
       (d : ExtDescriptor),
      isUrl x = false → isUrl y = false →
      failSetup env rsn x w a →
      y ∉ World.extNames w →
      env.index none y = some d →
      d.packageDeps.filter (fun p => decide (p ∉ w.packages)) = [] →
      d.extensionDeps.filter (fun e => decide (e ∉ World.extNames w)) = [] →
      x ∈ (installCommand env (f + 3) [x, y] w (a :: rest) rep).st.failed_extensions ∧
      y ∈ (installCommand env (f + 3) [x, y] w (a :: rest) rep).st.installed_extensions) ∧
    (∀ (f : Nat) (x y : String) (w : World) (ans : List (Option Bool)),
      x ∉ World.extNames w →
      y ∈ World.extNames w →
      dependentsOf y w = [] →
      x ∈ (uninstallCommand (f + 1) [x, y] w ans).st.failed_extensions ∧
      y ∈ (uninstallCommand (f + 1) [x, y] w ans).st.uninstalled_extensions) := by
  constructor
  · intro env f rsn x y w a rest rep d hux huy hset hy hidx hp he
    show x ∈ (installReportPhase _).st.failed_extensions ∧
      y ∈ (installReportPhase _).st.installed_extensions
    rw [installReportPhase_st]
    simp only [List.foldl_cons, List.foldl_nil]
    obtain ⟨hst1, hw1⟩ :=
      installOne_fail_step env f rsn x ⟨w, emptyStatus, a :: rest, rep, []⟩ a rest hux rfl hset
    obtain ⟨-, hst2⟩ :=
      installOne_success_step env f y
        ((installOne env (f + 3) x ⟨w, emptyStatus, a :: rest, rep, []⟩).2) d huy
        (by rw [hw1]; exact hy) hidx (by rw [hw1]; exact hp) (by rw [hw1]; exact he)
    rw [hst2, hst1]
    constructor
    · simp [emptyStatus]
    · simp

  · intro f x y w ans hx hy hdep
    show x ∈ (uninstallReportPhase _).st.failed_extensions ∧
      y ∈ (uninstallReportPhase _).st.uninstalled_extensions
    rw [uninstallReportPhase_st]
    simp only [List.foldl_cons, List.foldl_nil]
    have hstep1 :
        (uninstallOne (f + 1) x (⟨w, ⟨[], []⟩, ans, []⟩ : URun)).2.st =
          (⟨[], [x]⟩ : UninstallStatus) ∧
        (uninstallOne (f + 1) x (⟨w, ⟨[], []⟩, ans, []⟩ : URun)).2.w = w := by
      constructor <;>
        simp [uninstallOne, uninstall_extension, hx, URun.emit, URun.failExt]
    obtain ⟨hst1, hw1⟩ := hstep1
    generalize hgen : (uninstallOne (f + 1) x (⟨w, ⟨[], []⟩, ans, []⟩ : URun)).2 = s1
      at hst1 hw1 ⊢
    have hy' : y ∈ World.extNames s1.w := by rw [hw1]; exact hy
    have hdep' : dependentsOf y s1.w = [] := by rw [hw1]; exact hdep
    have hstep2 : (uninstallOne (f + 1) y s1).2.st =
        { s1.st with uninstalled_extensions := s1.st.uninstalled_extensions ++ [y] } := by
      simp [uninstallOne, uninstall_extension, hy', hdep', URun.emit]
    rw [hstep2, hst1]
    constructor
    · simp
    · simp

/-- Witness for C6 at concrete inputs: the batch of the names "a" (unknown
to the index) and "b" (resolvable with no dependencies) yields a report
with "a" failed and "b" installed; the uninstall batch of "a" (not
installed) and "b" (installed, no dependents) yields "a" failed and "b"
uninstalled. -/
theorem claim_C6_batch_partial_failure_witness :
    ("a" ∈ (installCommand ⟨fun _ n => if n = "b" then some ⟨[], []⟩ else none, fun _ => 0⟩
        3 ["a", "b"] ⟨[], []⟩ [none] []).st.failed_extensions ∧
      "b" ∈ (installCommand ⟨fun _ n => if n = "b" then some ⟨[], []⟩ else none, fun _ => 0⟩
        3 ["a", "b"] ⟨[], []⟩ [none] []).st.installed_extensions) ∧
    ("a" ∈ (uninstallCommand 1 ["a", "b"] ⟨[⟨"b", [], false⟩], []⟩
        []).st.failed_extensions ∧
      "b" ∈ (uninstallCommand 1 ["a", "b"] ⟨[⟨"b", [], false⟩], []⟩
        []).st.uninstalled_extensions) :=
  ⟨claim_C6_batch_partial_failure.1
      ⟨fun _ n => if n = "b" then some ⟨[], []⟩ else none, fun _ => 0⟩
      0 FailReason.notInIndex "a" "b" ⟨[], []⟩ none [] [] ⟨[], []⟩
      rfl rfl ⟨by decide, rfl⟩ (by decide) rfl rfl rfl,
   claim_C6_batch_partial_failure.2 0 "a" "b" ⟨[⟨"b", [], false⟩], []⟩ []
      (by decide) (by decide) (by decide)⟩

/-! ## Claim C5: cascading uninstall defers removal -/

theorem URun.emit_w (s : URun) (m : ItemMsg) : (URun.emit s m).w = s.w := rfl

theorem URun.emit_ans (s : URun) (m : ItemMsg) : (URun.emit s m).ans = s.ans := rfl

theorem URun.emit_out (s : URun) (m : ItemMsg) : (URun.emit s m).out = s.out ++ [m] := rfl

theorem mem_extNames {w : World} {n : String} :
    n ∈ World.extNames w ↔ ∃ r ∈ w.installed, r.name = n := by
  simp [World.extNames]

theorem uninstall_extension_cascade (A : String) (w : World)
    (h1 : A ∈ World.extNames w) (h2 : dependentsOf A w ≠ []) :
    uninstall_extension A w = Except.ok (dependentsOf A w, w) := by
  simp only [uninstall_extension]
  rw [if_pos h1, if_neg h2]

theorem uninstall_extension_closed (name : String) (w : World) (cas : List String)
    (w' : World) (hw : ClosedWorld w)
    (h : uninstall_extension name w = Except.ok (cas, w')) : ClosedWorld w' := by
  simp only [uninstall_extension] at h
  by_cases hmem : name ∈ World.extNames w
  · rw [if_pos hmem] at h
    by_cases hcas : dependentsOf name w = []
    · rw [if_pos hcas] at h
      simp only [Except.ok.injEq, Prod.mk.injEq] at h
      obtain ⟨-, hweq⟩ := h
      subst hweq
      intro r hr d hd
      have hr0 : r ∈ w.installed.filter (fun r2 => decide (r2.name ≠ name)) := hr
      have hr' : r ∈ w.installed := (List.mem_filter.mp hr0).1
      have hrname : r.name ≠ name := by
        have := (List.mem_filter.mp hr0).2
        simpa using this
      have hdm : d ∈ World.extNames w := hw r hr' d hd
      have hdne : d ≠ name := by
        intro heq
        subst heq
        have hrdep : r ∈ w.installed.filter (fun r2 => decide (d ∈ r2.extDeps)) :=
          List.mem_filter.mpr ⟨hr', by simpa using hd⟩
        have hmm : r.name ∈ dependentsOf d w :=
          List.mem_map.mpr ⟨r, hrdep, rfl⟩
        rw [hcas] at hmm
        simp at hmm
      obtain ⟨r2, hr2, hr2n⟩ := mem_extNames.mp hdm
      refine mem_extNames.mpr ⟨r2, ?_, hr2n⟩
      refine List.mem_filter.mpr ⟨hr2, ?_⟩
      rw [hr2n]
      simpa using hdne
    · rw [if_neg hcas] at h
      simp only [Except.ok.injEq, Prod.mk.injEq] at h
      obtain ⟨-, hweq⟩ := h
      subst hweq
      exact hw
  · rw [if_neg hmem] at h
    cases h

theorem URun.failExt_w (s : URun) (e : String) : (URun.failExt s e).w = s.w := rfl

theorem URun.failExt_out (s : URun) (e : String) : (URun.failExt s e).out = s.out := rfl

theorem URun.popAns_w (s : URun) : s.popAns.2.w = s.w := (URun.popAns_parts s).2.1

theorem URun.popAns_out (s : URun) : s.popAns.2.out = s.out := (URun.popAns_parts s).2.2

theorem uninstall_out_grows (fuel : Nat) :
    (∀ (ext : String) (s : URun), s.out <+: (uninstallOne fuel ext s).2.out) ∧
    (∀ (i : Nat) (cas : List String) (s : URun),
      s.out <+: (cascadeLoop fuel i cas s).2.out) := by
  induction fuel with
  | zero =>
    constructor
    · intro ext s
      simp [uninstallOne]
    · intro i cas s
      simp [cascadeLoop]
  | succ n ih =>
    obtain ⟨ihOne, ihLoop⟩ := ih
    constructor
    · intro ext s
      simp only [uninstallOne]
      cases hu : uninstall_extension ext (URun.emit s (ItemMsg.uninstalling ext)).w with
      | error e =>
        cases e
        simp [URun.emit, URun.failExt]
      | ok v =>
        obtain ⟨cas, w'⟩ := v
        dsimp only
        by_cases hc : cas = []
        · subst hc
          simp [URun.emit]
        · rw [if_neg hc]
          split
          · split
            · refine List.IsPrefix.trans ?_ (ihOne ext _)
              refine List.IsPrefix.trans ?_ (ihLoop 0 cas _)
              rw [URun.popAns_out]
              simp [URun.emit]
            · simp only [URun.failExt_out, URun.emit_out]
              refine List.IsPrefix.trans ?_ (List.prefix_append _ _)
              refine List.IsPrefix.trans ?_ (ihLoop 0 cas _)
              rw [URun.popAns_out]
              simp [URun.emit]
          · simp [URun.emit, URun.failExt, URun.popAns_out]
    · intro i cas s
      simp only [cascadeLoop]
      by_cases hlt : i < cas.length
      · rw [dif_pos hlt]
        rcases hone : uninstallOne n (cas.get ⟨i, hlt⟩) s with ⟨rc, s2⟩
        dsimp only
        have h1 : s.out <+: s2.out := by
          have := ihOne (cas.get ⟨i, hlt⟩) s
          rwa [hone] at this
        exact h1.trans (ihLoop (i + 1) _ s2)
      · rw [dif_neg hlt]

theorem uninstall_closed_preserved (fuel : Nat) :
    (∀ (ext : String) (s : URun), ClosedWorld s.w →
      ClosedWorld (uninstallOne fuel ext s).2.w) ∧
    (∀ (i : Nat) (cas : List String) (s : URun), ClosedWorld s.w →
      ClosedWorld (cascadeLoop fuel i cas s).2.w) := by
  induction fuel with
  | zero =>
    constructor
    · intro ext s hcw
      simpa [uninstallOne] using hcw
    · intro i cas s hcw
      simpa [cascadeLoop] using hcw
  | succ n ih =>
    obtain ⟨ihOne, ihLoop⟩ := ih
    constructor
    · intro ext s hcw
      simp only [uninstallOne]
      cases hu : uninstall_extension ext (URun.emit s (ItemMsg.uninstalling ext)).w with
      | error e =>
        cases e
        simpa [URun.emit, URun.failExt] using hcw
      | ok v =>
        obtain ⟨cas, w'⟩ := v
        have hcw' : ClosedWorld w' :=
          uninstall_extension_closed ext s.w cas w' hcw (by simpa [URun.emit_w] using hu)
        dsimp only
        by_cases hc : cas = []
        · subst hc
          simpa [URun.emit] using hcw'
        · rw [if_neg hc]
          split
          · split
            · refine ihOne ext _ ?_
              refine ihLoop 0 cas _ ?_
              simpa [URun.popAns_w, URun.emit] using hcw'
            · simpa [URun.emit, URun.failExt] using
                ihLoop 0 cas _ (by simpa [URun.popAns_w, URun.emit] using hcw')
          · simpa [URun.emit, URun.failExt, URun.popAns_w] using hcw'
    · intro i cas s hcw
      simp only [cascadeLoop]
      by_cases hlt : i < cas.length
      · rw [dif_pos hlt]
        rcases hone : uninstallOne n (cas.get ⟨i, hlt⟩) s with ⟨rc, s2⟩
        dsimp only
        have hs2 : ClosedWorld s2.w := by
          have := ihOne (cas.get ⟨i, hlt⟩) s hcw
          rwa [hone] at this
        exact ihLoop (i + 1) _ s2 hs2
      · rw [dif_neg hlt]
        exact hcw

theorem uninstallOne_reports_cascade (f : Nat) (A : String) (s : URun)
    (h1 : A ∈ World.extNames s.w) (h2 : dependentsOf A s.w ≠ []) :
    ItemMsg.cascadeNotice A (dependentsOf A s.w) ∈ (uninstallOne (f + 1) A s).2.out := by
  have hu : uninstall_extension A (URun.emit s (ItemMsg.uninstalling A)).w =
      Except.ok (dependentsOf A s.w, s.w) := by
    rw [URun.emit_w]
    exact uninstall_extension_cascade A s.w h1 h2
  simp only [uninstallOne, hu]
  rw [if_neg h2]
  split
  · split
    · refine ((uninstall_out_grows f).1 A _).subset ?_
      refine ((uninstall_out_grows f).2 0 _ _).subset ?_
      rw [URun.popAns_out]
      simp [URun.emit]
    · simp only [URun.emit, URun.failExt]
      refine List.mem_append_left _ ?_
      refine ((uninstall_out_grows f).2 0 _ _).subset ?_
      rw [URun.popAns_out]
      simp [URun.emit]
  · simp [URun.emit, URun.failExt, URun.popAns_out]


/-- Claim C5: for an installed extension A with installed dependents, the
registry's uninstall operation returns the non-empty cascade set (the
installed extensions whose declared extension dependencies include A) and
leaves A's record in place, and the uninstall command reports that cascade
set to the user; removal happens only through a call whose cascade set is
empty, and the whole recursive uninstall driver preserves the no-dangling
invariant: an extension is never removed while some installed extension
still declares a dependency on it. -/
theorem claim_C5_cascading_uninstall :
    (∀ (A : String) (w : World), A ∈ World.extNames w → dependentsOf A w ≠ [] →
      uninstall_extension A w = Except.ok (dependentsOf A w, w)) ∧
    (∀ (f : Nat) (A : String) (s : URun),
      A ∈ World.extNames s.w → dependentsOf A s.w ≠ [] →
      ItemMsg.cascadeNotice A (dependentsOf A s.w) ∈ (uninstallOne (f + 1) A s).2.out) ∧
    (∀ (A : String) (w : World) (cas : List String) (w' : World),
      uninstall_extension A w = Except.ok (cas, w') → A ∉ World.extNames w' → cas = []) ∧
    (∀ (fuel : Nat) (ext : String) (s : URun), ClosedWorld s.w →
      ClosedWorld (uninstallOne fuel ext s).2.w) := by
  refine ⟨uninstall_extension_cascade, uninstallOne_reports_cascade, ?_, ?_⟩
  · intro A w cas w' h hnot
    by_cases hmem : A ∈ World.extNames w
    · by_cases hcas : dependentsOf A w = []
      · simp only [uninstall_extension] at h
        rw [if_pos hmem, if_pos hcas] at h
        simp only [Except.ok.injEq, Prod.mk.injEq] at h
        exact h.1.symm
      · rw [uninstall_extension_cascade A w hmem hcas] at h
        simp only [Except.ok.injEq, Prod.mk.injEq] at h
        obtain ⟨-, hweq⟩ := h
        subst hweq
        exact absurd hmem hnot
    · simp only [uninstall_extension] at h
      rw [if_neg hmem] at h
      cases h
  · intro fuel ext s hcw
    exact (uninstall_closed_preserved fuel).1 ext s hcw

/-- Witness for C5 at concrete inputs: in a registry holding records for
the names "a" and "b" where "b" declares a dependency on "a", uninstalling
"a" returns the cascade set containing "b" and does not remove "a"; the
driver reports that cascade set; a removal result implies an empty cascade;
and the driver run preserves the no-dangling invariant. -/
theorem claim_C5_cascading_uninstall_witness :
    (uninstall_extension "a" ⟨[⟨"a", [], false⟩, ⟨"b", ["a"], false⟩], []⟩ =
      Except.ok (["b"], ⟨[⟨"a", [], false⟩, ⟨"b", ["a"], false⟩], []⟩)) ∧
    (ItemMsg.cascadeNotice "a" ["b"] ∈
      (uninstallOne 1 "a"
        ⟨⟨[⟨"a", [], false⟩, ⟨"b", ["a"], false⟩], []⟩, ⟨[], []⟩, [], []⟩).2.out) ∧
    ClosedWorld (uninstallOne 2 "a"
      ⟨⟨[⟨"a", [], false⟩, ⟨"b", ["a"], false⟩], []⟩, ⟨[], []⟩, [some true], []⟩).2.w :=
  ⟨claim_C5_cascading_uninstall.1 "a" ⟨[⟨"a", [], false⟩, ⟨"b", ["a"], false⟩], []⟩
      (by decide) (by decide),
   claim_C5_cascading_uninstall.2.1 0 "a"
      ⟨⟨[⟨"a", [], false⟩, ⟨"b", ["a"], false⟩], []⟩, ⟨[], []⟩, [], []⟩
      (by decide) (by decide),
   claim_C5_cascading_uninstall.2.2.2 2 "a"
      ⟨⟨[⟨"a", [], false⟩, ⟨"b", ["a"], false⟩], []⟩, ⟨[], []⟩, [some true], []⟩
      (by unfold ClosedWorld; decide)⟩

end Dwarf
